import Mathlib

/-!
Shallow embedding of the gameplay core of the `porcle` repository
(`src/game/ball.rs`, `src/game/movement.rs`, `src/game/core.rs`,
`src/game/gun.rs`, `src/game/spawn/paddle.rs`).

Real-valued game quantities (`f32` in the source) are modelled as exact
rationals `ℚ` where the claims are arithmetic, and as reals `ℝ` where a claim
needs continuity, square roots or exponentials.  Rust `usize` counters are
modelled as `ℕ` (with the two's-complement wrap made explicit where a cast
occurs in the source).  Each definition's doc comment points to the source
location it is translated from; definitions that model repository code that is
absent from `src/` (only referenced there) are marked `Modelled from the
spec:`.
-/

/-- Rust `f32::clamp(lo, hi)` (as used throughout `ball.rs`): values below
`lo` become `lo`, values above `hi` become `hi`. -/
def rclamp (x lo hi : ℚ) : ℚ := max lo (min x hi)

/-- `BALL_BASE_SPEED` constant from `src/game/ball.rs` (`pub const
BALL_BASE_SPEED: f32 = 250.`). -/
def BALL_BASE_SPEED : ℚ := 250

/-- Modelled from the spec: `Speed::speed_factor(lo, hi)` (the `Speed`
component of the movement module is referenced from `ball.rs` but its
definition is not under `src/`).  Spec §4.4 / glossary: a normalized speed
measure `clamp((speed−lo)/(hi−lo), 0, 1)`. -/
def speed_factor (s lo hi : ℚ) : ℚ := rclamp ((s - lo) / (hi - lo)) 0 1

/-- Modelled from the spec: `PaddleReflectionCount::ammo_bonus` (referenced at
`ball.rs:208`, defined in a `spawn/ball.rs` version that is not under `src/`).
Spec §4.1: an ammo bonus with a "diminishing per-hit bonus as streak grows";
modelled as a per-hit bonus that shrinks with the reflection count but always
awards at least one ammo unit. -/
def ammo_bonus (count : ℕ) : ℕ := max 1 (5 - count)

/-- `PaddleMode` from `src/game/spawn/paddle.rs` (entity reference of the
`Captured` variant dropped; the recorded shoot rotation kept, in degrees). -/
inductive PaddleMode where
  | reflect
  | capture
  | captured (shoot_rotation_deg : ℚ)
deriving DecidableEq

/-- The per-ball mutable state read and written by the paddle branch of
`handle_ball_collisions` (`src/game/ball.rs:138-229`): the ball's
`last_reflection_time` and `Speed`, its `PaddleReflectionCount`, and the
paddle's ammo counter (the `ammo.0 += ...` update at `ball.rs:208`). -/
structure ReflectState where
  last_reflection_time : ℚ
  speed : ℚ
  reflection_count : ℕ
  ammo : ℕ
deriving DecidableEq

/-- The paddle branch of `handle_ball_collisions` (`src/game/ball.rs:138-229`)
for one paddle contact at simulation time `now`: a `Captured` paddle ignores
the contact; a contact within 0.2 s of `last_reflection_time` is debounced;
a `Capture`-mode paddle captures the ball (no reflection state change, see
`capture_ball` below); otherwise the ball is reflected: speed is scaled by
1.225 and clamped to `[BALL_BASE_SPEED, 5 * BALL_BASE_SPEED]`
(`ball.rs:201`), the reflection count increments, the ammo bonus is added
without clamping (`ball.rs:207-208`), and `last_reflection_time` is set to
`now + cooldown` with `cooldown = 0.1 + 0.2 * speed_factor(BASE, 1.5*BASE)`
computed from the updated speed (`ball.rs:209-213`).  The returned flag tells
whether a reflection was resolved. -/
def handle_paddle_hit (mode : PaddleMode) (now : ℚ) (s : ReflectState) :
    ReflectState × Bool :=
  match mode with
  | .captured _ => (s, false)
  | .capture =>
      if now < s.last_reflection_time + 1/5 then (s, false) else (s, false)
  | .reflect =>
      if now < s.last_reflection_time + 1/5 then (s, false)
      else
        let speed1 := rclamp (s.speed * (49/40)) BALL_BASE_SPEED (BALL_BASE_SPEED * 5)
        let count1 := s.reflection_count + 1
        let ammo1 := s.ammo + ammo_bonus count1
        let cooldown := 1/10 + speed_factor speed1 BALL_BASE_SPEED (BALL_BASE_SPEED * (3/2)) * (1/5)
        ({ last_reflection_time := now + cooldown
           speed := speed1
           reflection_count := count1
           ammo := ammo1 }, true)

/-- The modulus of Rust's 64-bit `usize`/`isize`. -/
def USIZE_MOD : ℕ := 2 ^ 64

/-- `PaddleAmmo::offset` from `src/game/spawn/paddle.rs:86-88`:
`self.ammo = ((self.ammo as isize + delta) as usize).clamp(0, self.capacity)`.
The `as usize` cast reinterprets a negative sum as its two's complement,
which the final clamp then caps at `capacity`. -/
def PaddleAmmo.offset (ammo capacity : ℕ) (delta : ℤ) : ℕ :=
  max 0 (min ((((ammo : ℤ) + delta) % (USIZE_MOD : ℤ)).toNat) capacity)

/-- `PaddleAmmo` capacity as spawned in `src/game/spawn/paddle.rs:175-178`
(`PaddleAmmo { capacity: 50, ammo: 0 }`). -/
def PADDLE_AMMO_CAPACITY : ℕ := 50

/-- The ammo path of `fire_gun` from `src/game/gun.rs:42-66`: a shot is fired
only when ammo is positive (`if ammo.0 > 0 { ... ammo.0 -= 1; }`); with no
ammo the counter is untouched (only a shake is emitted). -/
def fire_gun (ammo : ℕ) : ℕ := if 0 < ammo then ammo - 1 else ammo

/-! ### Core damage state machine (`src/game/core.rs`) -/

/-- The core's state as acted on by `take_damage` (`src/game/core.rs:92-124`):
the ordered gear `active` flags (`Core::gear_entity_ids`), the `Health`
counter, whether the `Screen::Game` state is active (`run_if(in_game_state)`
gating; `in_game_state` itself is referenced from `crate::screen` but not
under `src/` — Modelled from the spec: §4.5 calls the game-over transition
terminal, so the gate closes once the transition fires), and the number of
game-over transitions requested so far (`next.set(Screen::GameOver)`). -/
structure CoreState where
  gears : List Bool
  hp : ℤ
  in_game : Bool
  over_count : ℕ
deriving DecidableEq

/-- `core.gear_entity_ids.iter_mut().find(|(_, active)| *active)` followed by
`*active = false` (`src/game/core.rs:104-105`): disable the first active gear
in insertion order; `none` when no gear is active (the `or_return!` path). -/
def disable_first_active : List Bool → Option (List Bool)
  | [] => none
  | g :: rest =>
      if g then some (false :: rest)
      else (disable_first_active rest).map (fun l => g :: l)

/-- One tick of `take_damage` (`src/game/core.rs:92-124`) receiving `events`
pending `TakeDamage` events.  The system only runs in the game state; all
pending events are drained at once (`ev_r.is_empty()` / `ev_r.clear()`), so
any positive number of same-tick events causes a single damage application:
disable the first active gear (aborting if none, `or_return!`), decrement
health by one, and when health hits exactly zero request the terminal
game-over transition. -/
def take_damage (events : ℕ) (s : CoreState) : CoreState :=
  if s.in_game = false then s
  else if events = 0 then s
  else
    match disable_first_active s.gears with
    | none => s
    | some gears1 =>
        let hp1 := s.hp - 1
        if hp1 = 0 then
          { gears := gears1, hp := hp1, in_game := false,
            over_count := s.over_count + 1 }
        else
          { s with gears := gears1, hp := hp1 }

/-- Iterated `take_damage` over a list of per-tick pending event counts. -/
def take_damage_run (es : List ℕ) (s : CoreState) : CoreState :=
  es.foldl (fun acc e => take_damage e acc) s

/-- Number of active gears (gears whose flag is `true`). -/
def active_gears (gs : List Bool) : ℕ := gs.count true

/-! ### Paddle rotation tracker (`src/game/movement.rs`, `spawn/paddle.rs`) -/

/-- `PaddleRotation` from `src/game/spawn/paddle.rs:44-73`: the two extremum
trackers, the previous accumulated rotation, and the elapsed time of the
50 ms one-shot idle `Timer`.  Angles are the unwrapped accumulated rotation
maintained by `accumulate_angle` (`src/game/movement.rs:146-154`), in
radians. -/
structure PaddleRotationState where
  cw_start : ℚ
  ccw_start : ℚ
  prev_rot : ℚ
  timer_elapsed : ℚ
deriving DecidableEq

/-- The 50 ms duration of the idle-reset timer
(`Timer::new(Duration::from_millis(50), TimerMode::Once)`). -/
def TIMER_DURATION : ℚ := 1/20

/-- `PaddleRotation::reset` (`src/game/spawn/paddle.rs:66-72`): set both
extrema and the previous rotation to the given accumulated rotation and reset
the idle timer. -/
def PaddleRotationState.reset (rotation : ℚ) : PaddleRotationState :=
  { cw_start := rotation, ccw_start := rotation, prev_rot := rotation,
    timer_elapsed := 0 }

/-- One tick of `reload_balls` (`src/game/movement.rs:95-138`) for one tracked
paddle.  `minRot` is the reload threshold, `355.0f32.to_radians()` in the
source; since that constant is irrational it is kept as a parameter (every
theorem below quantifies over it, covering the source's value).  `ball_in_core`
is `!ball_q.is_empty() && ball_q.iter().any(inside)`; `acc` is the current
`AccumulatedRotation` (radians) and `dt` the frame delta in seconds.  Order
follows the source: ball-in-core reset-and-return; the reload test against the
extrema (firing resets the tracker and triggers `SpawnBall`, counted by the
returned flag), else extremum updates; then the idle-rate check
(`|prev_rot − acc| / dt < 1` rad/s) ticking the 50 ms timer whose completion
resets the tracker without firing, a fast tick instead resetting the timer;
finally `prev_rot` is updated. -/
def reload_balls (minRot : ℚ) (ball_in_core : Bool) (acc dt : ℚ)
    (s : PaddleRotationState) : PaddleRotationState × Bool :=
  if ball_in_core then (PaddleRotationState.reset acc, false)
  else
    let sf :=
      if acc - s.cw_start ≤ -minRot ∨ minRot ≤ acc - s.ccw_start then
        (PaddleRotationState.reset acc, true)
      else if s.cw_start < acc then ({ s with cw_start := acc }, false)
      else if acc < s.ccw_start then ({ s with ccw_start := acc }, false)
      else (s, false)
    let s1 := sf.1
    let delta := |s1.prev_rot - acc| / dt
    let s2 :=
      if delta < 1 then
        if s1.timer_elapsed < TIMER_DURATION ∧ TIMER_DURATION ≤ s1.timer_elapsed + dt then
          PaddleRotationState.reset acc
        else { s1 with timer_elapsed := min (s1.timer_elapsed + dt) TIMER_DURATION }
      else { s1 with timer_elapsed := 0 }
    ({ s2 with prev_rot := acc }, sf.2)

/-- The freshly spawned tracker (`PaddleRotation::new`,
`src/game/spawn/paddle.rs:53-63`): everything zeroed. -/
def paddle_rotation_init : PaddleRotationState := PaddleRotationState.reset 0

/-- A uniform pointer sweep: `n` ticks with no ball in the core zone, the
accumulated rotation moving by `d` radians per tick (tick `i` sees
`acc = i * d`) at `dt` seconds per tick.  Returns the final tracker state and
the number of reload events fired. -/
def sweep_run (minRot d dt : ℚ) : ℕ → PaddleRotationState × ℕ
  | 0 => (paddle_rotation_init, 0)
  | n + 1 =>
      let p := sweep_run minRot d dt n
      let r := reload_balls minRot false (((n + 1 : ℕ) : ℚ) * d) dt p.1
      (r.1, p.2 + if r.2 then 1 else 0)

/-- Iterated `reload_balls` over an arbitrary trace of per-tick inputs
`(ball_in_core, acc, dt)`, counting fired reloads. -/
def reload_run (minRot : ℚ) : List (Bool × ℚ × ℚ) → PaddleRotationState →
    PaddleRotationState × ℕ
  | [], s => (s, 0)
  | t :: ts, s =>
      let r := reload_balls minRot t.1 t.2.1 t.2.2 s
      let rest := reload_run minRot ts r.1
      (rest.1, (if r.2 then 1 else 0) + rest.2)

/-! ### Ball capture (`src/game/ball.rs:174-186`) -/

/-- A 2-D rigid transform (rotation `(c, s)` plus translation), the shape of
the paddle's `GlobalTransform` in this 2-D game.  `apply` is
`transform_point`, `applyInverse` is `affine().inverse().transform_point`.
For a genuine rigid transform `c^2 + s^2 = 1` and the two maps are mutually
inverse. -/
structure Rigid2 where
  c : ℚ
  s : ℚ
  tx : ℚ
  ty : ℚ
deriving DecidableEq

/-- Apply the transform to a point (local → world). -/
def Rigid2.apply (t : Rigid2) (p : ℚ × ℚ) : ℚ × ℚ :=
  (t.c * p.1 - t.s * p.2 + t.tx, t.s * p.1 + t.c * p.2 + t.ty)

/-- Apply the inverse transform to a point (world → local): undo the
translation, then rotate by the inverse rotation `(c, −s)`. -/
def Rigid2.applyInverse (t : Rigid2) (p : ℚ × ℚ) : ℚ × ℚ :=
  (t.c * (p.1 - t.tx) + t.s * (p.2 - t.ty),
   -t.s * (p.1 - t.tx) + t.c * (p.2 - t.ty))

/-- The observable outcome of the `PaddleMode::Capture` branch of
`handle_ball_collisions` (`src/game/ball.rs:174-186`). -/
structure CaptureResult where
  paddle_mode : PaddleMode
  ball_parent_is_paddle : Bool
  movement_paused : Bool
  ball_local_translation : ℚ × ℚ
deriving DecidableEq

/-- The `PaddleMode::Capture` branch of `handle_ball_collisions`
(`src/game/ball.rs:174-186`): the paddle mode becomes
`Captured { shoot_rotation: angle, ball_e }`, the ball is reparented to the
paddle (`set_parent(paddle_e)`) with `MovementPaused` inserted, and the ball's
local translation is set to the paddle-local coordinates of its current world
position (`paddle_t.affine().inverse().transform_point(ball_t.translation())`,
`ball.rs:183-186`). -/
def capture_ball (angle_deg : ℚ) (paddle : Rigid2) (ball_world : ℚ × ℚ) :
    CaptureResult :=
  { paddle_mode := .captured angle_deg
    ball_parent_is_paddle := true
    movement_paused := true
    ball_local_translation := paddle.applyInverse ball_world }

/-! ### Core-zone membership (`src/game/ball.rs:55-77`) -/

/-- `PADDLE_RADIUS` from `src/game/spawn/paddle.rs:21`. -/
def PADDLE_RADIUS : ℚ := 260

/-- The `Homing` component values inserted on core-zone exit
(`src/game/ball.rs:68-74`). -/
structure HomingParams where
  max_distance : ℚ
  max_factor : ℚ
  factor_decay : ℚ
  max_angle : ℚ
  speed_mult : Option (ℚ × ℚ)
deriving DecidableEq

/-- The concrete homing parameters from `src/game/ball.rs:68-74`. -/
def ball_homing : HomingParams :=
  { max_distance := 300, max_factor := 80, factor_decay := 2, max_angle := 70,
    speed_mult := some (BALL_BASE_SPEED, BALL_BASE_SPEED * 2) }

/-- A ball as seen by `balls_inside_core`: its world position and the
presence/values of its `InsideCore` marker, `Damping` and `Homing`
components. -/
structure ZoneBall where
  pos : ℚ × ℚ
  inside_core_marker : Bool
  damping : Option ℚ
  homing : Option HomingParams
deriving DecidableEq

/-- Whether a position lies in the core zone:
`translation().length() < PADDLE_RADIUS * 1.1` (`src/game/ball.rs:60`), stated
on squares so it is exact over `ℚ` (both sides are nonnegative). -/
def in_core_zone (p : ℚ × ℚ) : Prop :=
  p.1 * p.1 + p.2 * p.2 < (PADDLE_RADIUS * (11/10)) * (PADDLE_RADIUS * (11/10))

instance (p : ℚ × ℚ) : Decidable (in_core_zone p) := by
  unfold in_core_zone; infer_instance

/-- One run of `balls_inside_core` from `src/game/ball.rs:55-77` on one ball:
on entering the zone (inside, no marker) insert the `InsideCore` marker and
remove both `Damping` and `Homing`; on leaving (outside, marker present)
remove the marker and insert `Damping(0.125)` and the homing component;
otherwise leave the ball untouched.  (An older variant in
`src/game/movement.rs:79-93` touches only `Damping`; spec §9 resolves the
ambiguity in favour of this version, which handles both components.) -/
def balls_inside_core (b : ZoneBall) : ZoneBall :=
  if in_core_zone b.pos ∧ b.inside_core_marker = false then
    { b with inside_core_marker := true, damping := none, homing := none }
  else if ¬ in_core_zone b.pos ∧ b.inside_core_marker = true then
    { b with inside_core_marker := false, damping := some (1/8),
             homing := some ball_homing }
  else b

/-- Consistency between the `InsideCore` marker and the damping/homing
components: the marker is present exactly when both components are absent.
This holds for a freshly spawned ball once `balls_inside_core` has processed
it, and `balls_inside_core` is the only system that toggles these
components. -/
def ZoneBall.consistent (b : ZoneBall) : Prop :=
  (b.inside_core_marker = true → b.damping = none ∧ b.homing = none) ∧
  (b.inside_core_marker = false → b.damping.isSome ∧ b.homing.isSome)

/-! ### Paddle bounce angle (`src/game/ball.rs:151-171`), over `ℝ` -/

/-- Rust `f32::signum` as it behaves on the values arising here: `-1` for
negative inputs, `1` otherwise (Rust maps `+0.0` to `1.0`; `ℝ` has no negative
zero). -/
noncomputable def fsignum (x : ℝ) : ℝ := if x < 0 then -1 else 1

/-- `angle_factor` from `src/game/ball.rs:157-161`:
`ratio.abs().min(1.0).powf(1.5)`, written as `t * √t` for the clamped
`t = min |ratio| 1 ≥ 0` (for `t ≥ 0`, `t^1.5 = t·t^0.5`). -/
noncomputable def angle_factor (r : ℝ) : ℝ :=
  min |r| 1 * Real.sqrt (min |r| 1)

/-- The side-dependent 180° flip: `origit_rot` from `src/game/ball.rs:165`
(`if hit_point_local.x > 0. { 180. } else { 0. }`). -/
noncomputable def origit_rot (x : ℝ) : ℝ := if 0 < x then 180 else 0

/-- The paddle bounce angle (degrees) from `src/game/ball.rs:157-171` as a
function of the contact `ratio = localY / (PADDLE_COLL_HEIGHT/2)` and the
paddle-local x-coordinate `x` of the contact point:
`angle = angle_factor * ratio.signum() * 20 * x.signum() + origit_rot`. -/
noncomputable def paddle_angle (r x : ℝ) : ℝ :=
  angle_factor r * fsignum r * 20 * fsignum x + origit_rot x

/-! ### Velocity guard and direction constructions
(`src/game/ball.rs:123-131, 260-262, 287-319`), over `ℝ` -/

/-- 2-D dot product. -/
def dot (a b : ℝ × ℝ) : ℝ := a.1 * b.1 + a.2 * b.2

/-- Euclidean length of a 2-D vector (`Vec2::length`). -/
noncomputable def vlen (v : ℝ × ℝ) : ℝ := Real.sqrt (dot v v)

/-- `Vec2::normalize_or_zero`: the unit vector in the direction of `v`, or
zero for the zero vector. -/
noncomputable def normalize_or_zero (v : ℝ × ℝ) : ℝ × ℝ :=
  if v = (0, 0) then (0, 0) else ((vlen v)⁻¹ * v.1, (vlen v)⁻¹ * v.2)

/-- `f32::EPSILON` = 2⁻²³, the velocity-guard threshold
(`src/game/ball.rs:123`). -/
noncomputable def F32_EPSILON : ℝ := 1 / 2 ^ 23

/-- Rotation of a 2-D vector by the rotation with cosine `c` and sine `s`
(`Quat::from_rotation_z(θ)` applied to an in-plane vector, then truncated). -/
def rotate2 (c s : ℝ) (v : ℝ × ℝ) : ℝ × ℝ :=
  (c * v.1 - s * v.2, s * v.1 + c * v.2)

/-- The wall mirror formula `d' = d − 2 (d·n) n` (`src/game/ball.rs:261`). -/
def reflect_dir (d n : ℝ × ℝ) : ℝ × ℝ :=
  (d.1 - 2 * dot d n * n.1, d.2 - 2 * dot d n * n.2)

/-- One contact reported by the primary shape sweep of
`handle_ball_collisions`, carrying the data each branch reads: for a paddle
hit, the paddle mode, whether the 0.2 s debounce rejects it, the rotation
`(cos θ, sin θ)` built from the bounce angle, and the paddle's `right()`
vector; for a wall hit, whether the 0.1 s debounce rejects it and the contact
normal; an enemy hit only despawns the enemy and marks the ball. -/
inductive BallHit where
  | paddleHit (mode : PaddleMode) (debounced : Bool) (rotC rotS : ℝ)
      (paddleRight : ℝ × ℝ)
  | wallHit (debounced : Bool) (normal : ℝ × ℝ)
  | enemyHit

/-- How one contact of the primary sweep updates the ball's `MoveDirection`
(`src/game/ball.rs:136-285`).  `vel` is the ball's (tick-constant) `Velocity`.
A `Captured`-mode or debounced paddle contact and a capture are skipped /
leave the direction alone; a reflecting paddle contact sets the direction to
`(rot * -paddle_t.right()).truncate().normalize_or_zero()` (`ball.rs:203`); a
non-debounced wall contact sets it to the mirror image of
`vel.normalize_or_zero()` in the contact normal (`ball.rs:260-262`); an enemy
contact leaves it alone. -/
noncomputable def hit_direction (vel dir : ℝ × ℝ) (h : BallHit) : ℝ × ℝ :=
  match h with
  | .paddleHit mode debounced c s pright =>
      match mode with
      | .captured _ => dir
      | .capture => dir
      | .reflect =>
          if debounced then dir
          else normalize_or_zero (rotate2 c s (-pright.1, -pright.2))
  | .wallHit debounced n =>
      if debounced then dir
      else reflect_dir (normalize_or_zero vel) n
  | .enemyHit => dir

/-- The ball's `MoveDirection` after the primary sweep's contact loop
processed all hits in order. -/
noncomputable def process_hits (vel dir : ℝ × ℝ) : List BallHit → ℝ × ℝ
  | [] => dir
  | h :: rest => process_hits vel (hit_direction vel dir h) rest

/-- Well-formedness of sweep contact data, guaranteed by the physics/transform
libraries: contact normals are unit vectors, the bounce rotation is a genuine
rotation, and the paddle's `right()` basis vector is a unit vector. -/
def BallHit.wf : BallHit → Prop
  | .paddleHit _ _ c s pright => c ^ 2 + s ^ 2 = 1 ∧ dot pright pright = 1
  | .wallHit _ n => dot n n = 1
  | .enemyHit => True

/-! ### Speed-factor smoother (`src/game/ball.rs:340-375`), over `ℝ` -/

/-- `Speed::speed_factor` over `ℝ` (see `speed_factor` above for the `ℚ`
version; Modelled from the spec, §4.4 / glossary). -/
noncomputable def speed_factor_real (s lo hi : ℝ) : ℝ :=
  max 0 (min ((s - lo) / (hi - lo)) 1)

/-- Modelled from the spec: `math::asymptotic_smoothing_with_delta_time`
(referenced from `ball.rs:345` but not under `src/`).  Spec §4.4: an
asymptotically-stable blend `factor += (target − factor) × (1 − e^(−rate·dt))`. -/
noncomputable def asymptotic_smoothing_with_delta_time
    (value target rate dt : ℝ) : ℝ :=
  value + (target - value) * (1 - Real.exp (-(rate * dt)))

/-- The instantaneous smoothing target of `update_ball_speed_factor`
(`src/game/ball.rs:345-351`): the maximum over all balls of
`speed_factor(1.3·BASE, 2.5·BASE)`, and `1.0` when there is no ball
(`.max_by(...).unwrap_or(1.)`). -/
noncomputable def max_ball_speed_target (speeds : List ℝ) : ℝ :=
  match speeds.map (fun s => speed_factor_real s (250 * (13/10)) (250 * (5/2))) with
  | [] => 1
  | f :: fs => fs.foldl max f

/-- One tick of `update_ball_speed_factor` (`src/game/ball.rs:340-355`):
smooth the tracked `MaxBallSpeedFactor` toward the instantaneous target with
rate `0.1` and the tick's delta time. -/
noncomputable def update_ball_speed_factor (factor : ℝ) (speeds : List ℝ)
    (dt : ℝ) : ℝ :=
  asymptotic_smoothing_with_delta_time factor (max_ball_speed_target speeds)
    (1/10) dt

/-- The smoothed factor along consecutive ticks with no ball entity present
(`speeds = []`), at a fixed per-tick delta time, starting from `f0`. -/
noncomputable def speed_factor_trace (f0 dt : ℝ) : ℕ → ℝ
  | 0 => f0
  | n + 1 => update_ball_speed_factor (speed_factor_trace f0 dt n) [] dt

/-- `boost_postprocessing_based_on_ball_speed` (`src/game/ball.rs:357-364`):
`bloom.intensity = BLOOM_BASE + 0.175 * factor` (`BLOOM_BASE` lives in the
crate root, not under `src/`; kept as a parameter). -/
noncomputable def bloom_intensity (bloom_base f : ℝ) : ℝ := bloom_base + (7/40) * f

/-- `update_trauma_based_on_ball_speed` (`src/game/ball.rs:366-375`): the
shake settings driven by the smoothed factor. -/
noncomputable def shake_decay_per_second (f : ℝ) : ℝ := 9/10 + 1/10 * f

/-- `shake.amplitude = 25.0 - 10. * factor` (`src/game/ball.rs:372`). -/
noncomputable def shake_amplitude (f : ℝ) : ℝ := 25 - 10 * f

/-- `shake.trauma_power = 1.5 + 0.5 * factor` (`src/game/ball.rs:373`). -/
noncomputable def shake_trauma_power (f : ℝ) : ℝ := 3/2 + 1/2 * f

/-! ## Theorems -/

theorem rclamp_lower (x lo hi : ℚ) : lo ≤ rclamp x lo hi := le_max_left _ _

theorem rclamp_upper (x lo hi : ℚ) (h : lo ≤ hi) : rclamp x lo hi ≤ hi :=
  max_le h (min_le_right _ _)

theorem speed_factor_nonneg (s lo hi : ℚ) : 0 ≤ speed_factor s lo hi :=
  le_max_left _ _

theorem speed_factor_le_one (s lo hi : ℚ) : speed_factor s lo hi ≤ 1 :=
  max_le (by norm_num) (min_le_right _ _)

/-- Claim C1: a paddle contact resolved in `Reflecting` mode (mode `Reflect`,
debounce passed) sets the ball's speed to
`clamp(oldSpeed × 1.225, BASE, 5×BASE)` with `BASE = BALL_BASE_SPEED = 250`
(`ball.rs:201`), hence the post-reflection speed always lies in
`[BASE, 5×BASE]`. -/
theorem paddle_reflection_speed_clamped (now : ℚ) (s : ReflectState)
    (hdeb : ¬ now < s.last_reflection_time + 1/5) :
    (handle_paddle_hit .reflect now s).1.speed
        = rclamp (s.speed * (49/40)) BALL_BASE_SPEED (BALL_BASE_SPEED * 5)
    ∧ BALL_BASE_SPEED ≤ (handle_paddle_hit .reflect now s).1.speed
    ∧ (handle_paddle_hit .reflect now s).1.speed ≤ BALL_BASE_SPEED * 5
    ∧ (handle_paddle_hit .reflect now s).2 = true := by
  simp only [handle_paddle_hit, if_neg hdeb]
  refine ⟨by trivial, rclamp_lower _ _ _, rclamp_upper _ _ _ ?_, by trivial⟩
  norm_num [BALL_BASE_SPEED]

theorem paddle_reflection_speed_clamped_witness :
    ¬ (1 : ℚ) < (0 : ℚ) + 1/5 ∧
      ((handle_paddle_hit .reflect 1 ⟨0, 250, 0, 0⟩).1.speed
          = rclamp (250 * (49/40)) BALL_BASE_SPEED (BALL_BASE_SPEED * 5)
        ∧ BALL_BASE_SPEED ≤ (handle_paddle_hit .reflect 1 ⟨0, 250, 0, 0⟩).1.speed
        ∧ (handle_paddle_hit .reflect 1 ⟨0, 250, 0, 0⟩).1.speed ≤ BALL_BASE_SPEED * 5
        ∧ (handle_paddle_hit .reflect 1 ⟨0, 250, 0, 0⟩).2 = true) :=
  ⟨by norm_num, paddle_reflection_speed_clamped 1 ⟨0, 250, 0, 0⟩ (by norm_num)⟩

/-- Claim C2 (evaluation at the failing input): the reflection branch adds the
ammo bonus by a direct, unclamped field update (`ammo.0 +=
paddle_reflection_count.ammo_bonus()`, `ball.rs:207-208`), so from a full
magazine (`ammo = capacity = 50`, reachable by reflecting repeatedly) one more
reflection leaves the counter at `51 > capacity`; the clamped mutation API
`PaddleAmmo::offset` (`spawn/paddle.rs:86-88`) — which the claim describes,
and which is the only mutation the `PaddleAmmo` struct's private fields
actually admit — would have capped the same mutation at `capacity`. -/
theorem ammo_reflection_overflows_capacity :
    (handle_paddle_hit .reflect 1 ⟨0, 250, 10, 50⟩).1.ammo = 51
    ∧ PADDLE_AMMO_CAPACITY < 51
    ∧ PaddleAmmo.offset 50 PADDLE_AMMO_CAPACITY 1 = 50
    ∧ PaddleAmmo.offset 50 PADDLE_AMMO_CAPACITY 1 ≤ PADDLE_AMMO_CAPACITY := by
  refine ⟨?_, by norm_num [PADDLE_AMMO_CAPACITY], ?_, ?_⟩
  · norm_num [handle_paddle_hit, ammo_bonus]
  · norm_num [PaddleAmmo.offset, PADDLE_AMMO_CAPACITY, USIZE_MOD]
  · norm_num [PaddleAmmo.offset, PADDLE_AMMO_CAPACITY, USIZE_MOD]

/-- Claim C5: two paddle contacts on the same ball within 0.2 simulated
seconds produce exactly one reflection.  If the first contact at time `t`
passes the debounce and reflects, any second contact at `t' ∈ (t, t + 0.2)`
is rejected by the `last_reflection_time` debounce (`ball.rs:146-149`):
the state after both contacts equals the state after the first, with ammo
incremented once and speed scaled once. -/
theorem paddle_contact_debounce_single_reflection (t t' : ℚ) (s : ReflectState)
    (h1 : s.last_reflection_time + 1/5 ≤ t) (h2 : t < t') (h3 : t' < t + 1/5) :
    (handle_paddle_hit .reflect t s).2 = true
    ∧ (handle_paddle_hit .reflect t' (handle_paddle_hit .reflect t s).1).2 = false
    ∧ (handle_paddle_hit .reflect t' (handle_paddle_hit .reflect t s).1).1
        = (handle_paddle_hit .reflect t s).1
    ∧ (handle_paddle_hit .reflect t s).1.ammo
        = s.ammo + ammo_bonus (s.reflection_count + 1)
    ∧ (handle_paddle_hit .reflect t s).1.reflection_count
        = s.reflection_count + 1
    ∧ (handle_paddle_hit .reflect t s).1.speed
        = rclamp (s.speed * (49/40)) BALL_BASE_SPEED (BALL_BASE_SPEED * 5) := by
  have hdeb1 : ¬ t < s.last_reflection_time + 1/5 := not_lt.mpr h1
  have hsf : 0 ≤ speed_factor
      (rclamp (s.speed * (49/40)) BALL_BASE_SPEED (BALL_BASE_SPEED * 5))
      BALL_BASE_SPEED (BALL_BASE_SPEED * (3/2)) := speed_factor_nonneg _ _ _
  simp only [handle_paddle_hit, if_neg hdeb1]
  have hdeb2 : t' < (t + (1/10 + speed_factor
      (rclamp (s.speed * (49/40)) BALL_BASE_SPEED (BALL_BASE_SPEED * 5))
      BALL_BASE_SPEED (BALL_BASE_SPEED * (3/2)) * (1/5))) + 1/5 := by
    nlinarith
  simp only [if_pos hdeb2]
  exact ⟨by trivial, by trivial, by trivial, by trivial, by trivial, by trivial⟩

theorem paddle_contact_debounce_single_reflection_witness :
    ((0 : ℚ) + 1/5 ≤ 1 ∧ (1 : ℚ) < 11/10 ∧ (11/10 : ℚ) < 1 + 1/5)
    ∧ ((handle_paddle_hit .reflect 1 ⟨0, 250, 0, 0⟩).2 = true
      ∧ (handle_paddle_hit .reflect (11/10) (handle_paddle_hit .reflect 1 ⟨0, 250, 0, 0⟩).1).2 = false
      ∧ (handle_paddle_hit .reflect (11/10) (handle_paddle_hit .reflect 1 ⟨0, 250, 0, 0⟩).1).1
          = (handle_paddle_hit .reflect 1 ⟨0, 250, 0, 0⟩).1
      ∧ (handle_paddle_hit .reflect 1 ⟨0, 250, 0, 0⟩).1.ammo
          = 0 + ammo_bonus (0 + 1)
      ∧ (handle_paddle_hit .reflect 1 ⟨0, 250, 0, 0⟩).1.reflection_count = 0 + 1
      ∧ (handle_paddle_hit .reflect 1 ⟨0, 250, 0, 0⟩).1.speed
          = rclamp (250 * (49/40)) BALL_BASE_SPEED (BALL_BASE_SPEED * 5)) :=
  ⟨⟨by norm_num, by norm_num, by norm_num⟩,
    paddle_contact_debounce_single_reflection 1 (11/10) ⟨0, 250, 0, 0⟩
      (by norm_num) (by norm_num) (by norm_num)⟩

theorem take_damage_run_nil (s : CoreState) : take_damage_run [] s = s := rfl

theorem take_damage_run_cons (e : ℕ) (rest : List ℕ) (s : CoreState) :
    take_damage_run (e :: rest) s = take_damage_run rest (take_damage e s) := rfl

theorem take_damage_not_in_game (e : ℕ) (s : CoreState)
    (h : s.in_game = false) : take_damage e s = s := by
  unfold take_damage
  simp [h]

theorem take_damage_run_not_in_game (ms : List ℕ) (s : CoreState)
    (h : s.in_game = false) : take_damage_run ms s = s := by
  induction ms with
  | nil => rfl
  | cons m rest ih =>
      rw [take_damage_run_cons, take_damage_not_in_game m s h, ih]

theorem disable_first_active_spec (gs : List Bool) (h : 0 < active_gears gs) :
    ∃ g1, disable_first_active gs = some g1
      ∧ active_gears g1 + 1 = active_gears gs := by
  induction gs with
  | nil => simp [active_gears] at h
  | cons g rest ih =>
      cases g with
      | true =>
          refine ⟨false :: rest, ?_, ?_⟩
          · simp [disable_first_active]
          · simp [active_gears, List.count_cons]
      | false =>
          have h' : 0 < active_gears rest := by
            simpa [active_gears, List.count_cons] using h
          obtain ⟨r1, hr, hc⟩ := ih h'
          refine ⟨false :: r1, ?_, ?_⟩
          · simp [disable_first_active, hr]
          · simpa [active_gears, List.count_cons] using hc

theorem take_damage_step_eq (e : ℕ) (s : CoreState) (g1 : List Bool)
    (hg : s.in_game = true) (he : 0 < e)
    (hd : disable_first_active s.gears = some g1) :
    take_damage e s =
      if s.hp - 1 = 0 then
        (⟨g1, s.hp - 1, false, s.over_count + 1⟩ : CoreState)
      else { s with gears := g1, hp := s.hp - 1 } := by
  unfold take_damage
  rw [hg, hd]
  simp [Nat.pos_iff_ne_zero.mp he]


theorem take_damage_countdown :
    ∀ (es : List ℕ) (s : CoreState),
      s.in_game = true → s.over_count = 0 → (∀ e ∈ es, 0 < e) →
      s.hp = es.length → 0 < es.length → es.length ≤ active_gears s.gears →
      (take_damage_run es s).hp = 0
      ∧ (take_damage_run es s).in_game = false
      ∧ (take_damage_run es s).over_count = 1
      ∧ active_gears (take_damage_run es s).gears
          = active_gears s.gears - es.length := by
  intro es
  induction es with
  | nil => intro s _ _ _ _ h5 _; simp at h5
  | cons e rest ih =>
      intro s hg hover hpos hhp hlen hact
      have he : 0 < e := hpos e (List.mem_cons_self e rest)
      have hactive : 0 < active_gears s.gears := by
        have h1 : 0 < (e :: rest).length := by simp
        omega
      obtain ⟨g1, hd, hc⟩ := disable_first_active_spec s.gears hactive
      rw [take_damage_run_cons, take_damage_step_eq e s g1 hg he hd]
      cases rest with
      | nil =>
          have hhp1 : s.hp - 1 = 0 := by
            simp at hhp
            omega
          rw [if_pos hhp1, take_damage_run_nil]
          refine ⟨hhp1, rfl, ?_, ?_⟩
          · show s.over_count + 1 = 1
            omega
          · show active_gears g1 = active_gears s.gears - (e :: ([] : List ℕ)).length
            simp only [List.length_cons, List.length_nil]
            omega
      | cons r rs =>
          have hhp1 : ¬ s.hp - 1 = 0 := by
            simp at hhp
            omega
          rw [if_neg hhp1]
          have hres := ih { s with gears := g1, hp := s.hp - 1 }
            hg hover (fun x hx => hpos x (List.mem_cons_of_mem e hx))
            (by simp at hhp ⊢; omega)
            (by simp)
            (by simp at hact ⊢; omega)
          refine ⟨hres.1, hres.2.1, hres.2.2.1, ?_⟩
          rw [hres.2.2.2]
          simp at hact ⊢
          omega

theorem take_damage_inv (e : ℕ) (s : CoreState)
    (h1 : s.in_game = true → 0 < s.hp ∧ s.over_count = 0)
    (h2 : s.in_game = false → s.hp = 0 ∧ s.over_count = 1) :
    ((take_damage e s).in_game = true →
        0 < (take_damage e s).hp ∧ (take_damage e s).over_count = 0)
    ∧ ((take_damage e s).in_game = false →
        (take_damage e s).hp = 0 ∧ (take_damage e s).over_count = 1) := by
  rcases hgame : s.in_game with _ | _
  · rw [take_damage_not_in_game e s hgame]
    exact ⟨h1, h2⟩
  · have hs := h1 hgame
    rcases Nat.eq_zero_or_pos e with he | he
    · have hid : take_damage e s = s := by
        unfold take_damage
        rw [hgame, he]
        simp
      rw [hid]
      exact ⟨h1, h2⟩
    · rcases hd : disable_first_active s.gears with _ | g1
      · have hid : take_damage e s = s := by
          unfold take_damage
          rw [hgame, hd]
          simp [Nat.pos_iff_ne_zero.mp he]
        rw [hid]
        exact ⟨h1, h2⟩
      · rw [take_damage_step_eq e s g1 hgame he hd]
        by_cases hz : s.hp - 1 = 0
        · rw [if_pos hz]
          refine ⟨?_, ?_⟩
          · intro h
            exact absurd h (by simp)
          · intro _
            refine ⟨hz, ?_⟩
            show s.over_count + 1 = 1
            omega
        · rw [if_neg hz]
          refine ⟨?_, ?_⟩
          · intro _
            constructor
            · show 0 < s.hp - 1
              omega
            · exact hs.2
          · intro h
            exact absurd h (by simp [hgame])

theorem take_damage_run_inv (es : List ℕ) (s : CoreState)
    (h1 : s.in_game = true → 0 < s.hp ∧ s.over_count = 0)
    (h2 : s.in_game = false → s.hp = 0 ∧ s.over_count = 1) :
    ((take_damage_run es s).in_game = true →
        0 < (take_damage_run es s).hp ∧ (take_damage_run es s).over_count = 0)
    ∧ ((take_damage_run es s).in_game = false →
        (take_damage_run es s).hp = 0
          ∧ (take_damage_run es s).over_count = 1) := by
  induction es generalizing s with
  | nil => exact ⟨h1, h2⟩
  | cons e rest ih =>
      rw [take_damage_run_cons]
      have hstep := take_damage_inv e s h1 h2
      exact ih (take_damage e s) hstep.1 hstep.2


/-- Claim C3 (amended): starting from core health `N > 0` with at least `N`
active gears, a sequence of `N` damage events delivered on `N` distinct ticks
disables one active gear per event (the first active in insertion order, via
`disable_first_active`), decrements health to exactly 0, requests the terminal
game-over transition exactly once, keeps health nonnegative at every prefix of
the run, and any further damage events change nothing (in particular health
never drops below 0 and no second game-over fires). -/
theorem core_damage_game_over_once (n : ℕ) (gears : List Bool)
    (es ms : List ℕ) (k : ℕ)
    (hn : 0 < n) (hg : n ≤ active_gears gears)
    (hlen : es.length = n) (hpos : ∀ e ∈ es, 0 < e) :
    (take_damage_run es ⟨gears, (n : ℤ), true, 0⟩).hp = 0
    ∧ (take_damage_run es ⟨gears, (n : ℤ), true, 0⟩).in_game = false
    ∧ (take_damage_run es ⟨gears, (n : ℤ), true, 0⟩).over_count = 1
    ∧ active_gears (take_damage_run es ⟨gears, (n : ℤ), true, 0⟩).gears
        = active_gears gears - n
    ∧ 0 ≤ (take_damage_run (es.take k) ⟨gears, (n : ℤ), true, 0⟩).hp
    ∧ take_damage_run ms (take_damage_run es ⟨gears, (n : ℤ), true, 0⟩)
        = take_damage_run es ⟨gears, (n : ℤ), true, 0⟩ := by
  subst hlen
  have hmain := take_damage_countdown es ⟨gears, (es.length : ℤ), true, 0⟩
    rfl rfl hpos rfl hn hg
  have hinv := take_damage_run_inv (es.take k) ⟨gears, (es.length : ℤ), true, 0⟩
    (fun _ => ⟨by show (0 : ℤ) < (es.length : ℤ); exact_mod_cast hn, rfl⟩) (fun h => by simp at h)
  refine ⟨hmain.1, hmain.2.1, hmain.2.2.1, hmain.2.2.2, ?_,
    take_damage_run_not_in_game ms _ hmain.2.1⟩
  rcases hgame : (take_damage_run (es.take k)
      ⟨gears, (es.length : ℤ), true, 0⟩).in_game with _ | _
  · exact le_of_eq (hinv.2 hgame).1.symm
  · exact le_of_lt (hinv.1 hgame).1

/-- Claim C3 (counterexample to the claim as stated): `take_damage` drains
all `TakeDamage` events pending in a tick and applies a single damage
(`ev_r.is_empty()` / `ev_r.clear()`, `core.rs:100-101`).  With health 2 and
two active gears, a sequence of 2 damage events landing in the same tick
disables only one gear and leaves health at 1: health does not reach 0 and no
game-over transition fires, contradicting one-gear-per-event / health-to-zero
/ exactly-one-transition. -/
theorem take_damage_same_tick_batch_cex :
    (take_damage_run [2] ⟨[true, true], 2, true, 0⟩).hp = 1
    ∧ (take_damage_run [2] ⟨[true, true], 2, true, 0⟩).over_count = 0
    ∧ (take_damage_run [2] ⟨[true, true], 2, true, 0⟩).gears = [false, true]
    ∧ ¬ ((take_damage_run [2] ⟨[true, true], 2, true, 0⟩).hp = 0
        ∧ (take_damage_run [2] ⟨[true, true], 2, true, 0⟩).over_count = 1) := by
  decide

theorem core_damage_game_over_once_witness :
    ((0 : ℕ) < 2 ∧ 2 ≤ active_gears [true, true, true]
      ∧ ([1, 1] : List ℕ).length = 2 ∧ ∀ e ∈ ([1, 1] : List ℕ), 0 < e)
    ∧ ((take_damage_run [1, 1] ⟨[true, true, true], (2 : ℤ), true, 0⟩).hp = 0
      ∧ (take_damage_run [1, 1] ⟨[true, true, true], (2 : ℤ), true, 0⟩).in_game = false
      ∧ (take_damage_run [1, 1] ⟨[true, true, true], (2 : ℤ), true, 0⟩).over_count = 1
      ∧ active_gears (take_damage_run [1, 1] ⟨[true, true, true], (2 : ℤ), true, 0⟩).gears
          = active_gears [true, true, true] - 2
      ∧ 0 ≤ (take_damage_run (([1, 1] : List ℕ).take 1) ⟨[true, true, true], (2 : ℤ), true, 0⟩).hp
      ∧ take_damage_run [3] (take_damage_run [1, 1] ⟨[true, true, true], (2 : ℤ), true, 0⟩)
          = take_damage_run [1, 1] ⟨[true, true, true], (2 : ℤ), true, 0⟩) :=
  ⟨⟨by decide, by decide, by decide, by decide⟩,
    core_damage_game_over_once 2 [true, true, true] [1, 1] [3] 1
      (by decide) (by decide) (by decide) (by decide)⟩

theorem reload_fires_iff (minRot : ℚ) (bic : Bool) (acc dt : ℚ)
    (s : PaddleRotationState) :
    (reload_balls minRot bic acc dt s).2 = true ↔
      bic = false ∧ (acc - s.cw_start ≤ -minRot ∨ minRot ≤ acc - s.ccw_start) := by
  unfold reload_balls
  rcases bic with _ | _
  · simp only [Bool.false_eq_true, if_false]
    split_ifs with hf <;> simp_all
  · simp

theorem reload_step_no_fire_fast (minRot acc dt : ℚ) (s : PaddleRotationState)
    (h1 : ¬ (acc - s.cw_start ≤ -minRot ∨ minRot ≤ acc - s.ccw_start))
    (h2 : ¬ s.cw_start < acc) (h3 : acc < s.ccw_start)
    (h4 : ¬ |s.prev_rot - acc| / dt < 1) :
    reload_balls minRot false acc dt s = (⟨s.cw_start, acc, acc, 0⟩, false) := by
  unfold reload_balls
  simp only [Bool.false_eq_true, if_false, if_neg h1, if_neg h2, if_pos h3]
  simp only [if_neg h4]

theorem reload_step_fire (minRot acc dt : ℚ) (s : PaddleRotationState)
    (h1 : acc - s.cw_start ≤ -minRot ∨ minRot ≤ acc - s.ccw_start) :
    ∃ e, reload_balls minRot false acc dt s = (⟨acc, acc, acc, e⟩, true) := by
  unfold reload_balls
  simp only [Bool.false_eq_true, if_false, if_pos h1]
  by_cases h2 : |(PaddleRotationState.reset acc).prev_rot - acc| / dt < 1
  · rw [if_pos h2]
    by_cases h3 : (PaddleRotationState.reset acc).timer_elapsed < TIMER_DURATION ∧
        TIMER_DURATION ≤ (PaddleRotationState.reset acc).timer_elapsed + dt
    · exact ⟨0, by rw [if_pos h3]; simp [PaddleRotationState.reset]⟩
    · refine ⟨min ((PaddleRotationState.reset acc).timer_elapsed + dt) TIMER_DURATION, ?_⟩
      rw [if_neg h3]
      simp [PaddleRotationState.reset]
  · exact ⟨0, by rw [if_neg h2]; simp [PaddleRotationState.reset]⟩

theorem one_le_neg_div (d dt : ℚ) (hdt : 0 < dt) (hrate : dt ≤ -d) :
    ¬ -d / dt < 1 :=
  not_lt.mpr ((one_le_div hdt).mpr hrate)

theorem sweep_fast_phase1 (minRot d dt : ℚ) (hm : 0 < minRot) (hd : d < 0)
    (hdt : 0 < dt) (hrate : dt ≤ -d) :
    ∀ i : ℕ, (∀ j : ℕ, j ≤ i → ¬ minRot ≤ (j : ℚ) * (-d)) →
      sweep_run minRot d dt i = (⟨0, (i : ℚ) * d, (i : ℚ) * d, 0⟩, 0) := by
  intro i
  induction i with
  | zero =>
      intro _
      simp [sweep_run, paddle_rotation_init, PaddleRotationState.reset]
  | succ i ih =>
      intro h
      have hstate := ih (fun j hj => h j (le_trans hj (Nat.le_succ i)))
      have hc1 : ¬ minRot ≤ ((i + 1 : ℕ) : ℚ) * (-d) := h (i + 1) le_rfl
      rw [sweep_run, hstate]
      have e1 : ((i + 1 : ℕ) : ℚ) * (-d) = -(((i + 1 : ℕ) : ℚ) * d) := by ring
      have e2 : ((i + 1 : ℕ) : ℚ) * d - (i : ℚ) * d = d := by push_cast; ring
      have h1 : ¬ (((i + 1 : ℕ) : ℚ) * d -
            (⟨0, (i : ℚ) * d, (i : ℚ) * d, 0⟩ : PaddleRotationState).cw_start ≤ -minRot
          ∨ minRot ≤ ((i + 1 : ℕ) : ℚ) * d -
            (⟨0, (i : ℚ) * d, (i : ℚ) * d, 0⟩ : PaddleRotationState).ccw_start) := by
        push_neg
        constructor
        · show -minRot < ((i + 1 : ℕ) : ℚ) * d - 0
          rw [e1] at hc1
          push_neg at hc1
          linarith
        · show ((i + 1 : ℕ) : ℚ) * d - (i : ℚ) * d < minRot
          rw [e2]
          linarith
      have h2 : ¬ (⟨0, (i : ℚ) * d, (i : ℚ) * d, 0⟩ : PaddleRotationState).cw_start
          < ((i + 1 : ℕ) : ℚ) * d := by
        show ¬ (0 : ℚ) < ((i + 1 : ℕ) : ℚ) * d
        push_neg
        have : (0 : ℚ) < ((i + 1 : ℕ) : ℚ) := by positivity
        nlinarith
      have h3 : ((i + 1 : ℕ) : ℚ) * d
          < (⟨0, (i : ℚ) * d, (i : ℚ) * d, 0⟩ : PaddleRotationState).ccw_start := by
        show ((i + 1 : ℕ) : ℚ) * d < (i : ℚ) * d
        linarith [e2]
      have h4 : ¬ |(⟨0, (i : ℚ) * d, (i : ℚ) * d, 0⟩ : PaddleRotationState).prev_rot -
          ((i + 1 : ℕ) : ℚ) * d| / dt < 1 := by
        show ¬ |(i : ℚ) * d - ((i + 1 : ℕ) : ℚ) * d| / dt < 1
        have e3 : (i : ℚ) * d - ((i + 1 : ℕ) : ℚ) * d = -d := by push_cast; ring
        rw [e3, abs_of_pos (by linarith : (0 : ℚ) < -d)]
        exact one_le_neg_div d dt hdt hrate
      rw [reload_step_no_fire_fast minRot (((i + 1 : ℕ) : ℚ) * d) dt _ h1 h2 h3 h4]
      simp

theorem sweep_fast_phase2 (minRot d dt : ℚ) (k : ℕ) (hm : 0 < minRot)
    (hd : d < 0) (hdt : 0 < dt) (hrate : dt ≤ -d)
    (hk : minRot ≤ (k : ℚ) * (-d))
    (hkmin : ∀ j : ℕ, j < k → ¬ minRot ≤ (j : ℚ) * (-d)) :
    ∀ i : ℕ, k ≤ i → (i : ℚ) * (-d) < 2 * minRot →
      (sweep_run minRot d dt i).1.cw_start = (k : ℚ) * d
      ∧ (sweep_run minRot d dt i).1.ccw_start = (i : ℚ) * d
      ∧ (sweep_run minRot d dt i).1.prev_rot = (i : ℚ) * d
      ∧ (sweep_run minRot d dt i).2 = 1 := by
  intro i
  induction i with
  | zero =>
      intro hki _
      exfalso
      have hk0 : k = 0 := Nat.le_zero.mp hki
      rw [hk0] at hk
      simp at hk
      linarith
  | succ i ih =>
      intro hki hbound
      rcases Nat.lt_or_ge i k with hik | hik
      · -- i + 1 = k : the firing tick
        have hik1 : i + 1 = k := by omega
        have hphase1 := sweep_fast_phase1 minRot d dt hm hd hdt hrate i
          (fun j hj => hkmin j (by omega))
        rw [sweep_run, hphase1]
        have h1 : ((i + 1 : ℕ) : ℚ) * d -
            (⟨0, (i : ℚ) * d, (i : ℚ) * d, 0⟩ : PaddleRotationState).cw_start ≤ -minRot
            ∨ minRot ≤ ((i + 1 : ℕ) : ℚ) * d -
            (⟨0, (i : ℚ) * d, (i : ℚ) * d, 0⟩ : PaddleRotationState).ccw_start := by
          left
          show ((i + 1 : ℕ) : ℚ) * d - 0 ≤ -minRot
          rw [← hik1] at hk
          have e1 : ((i + 1 : ℕ) : ℚ) * (-d) = -(((i + 1 : ℕ) : ℚ) * d) := by ring
          rw [e1] at hk
          linarith
        obtain ⟨e, he⟩ := reload_step_fire minRot (((i + 1 : ℕ) : ℚ) * d) dt _ h1
        rw [he]
        refine ⟨?_, ?_, ?_, ?_⟩ <;> simp [hik1]
      · -- k ≤ i : already fired
        have hboundi : (i : ℚ) * (-d) < 2 * minRot := by
          have : (i : ℚ) * (-d) ≤ ((i + 1 : ℕ) : ℚ) * (-d) := by
            have : (i : ℚ) ≤ ((i + 1 : ℕ) : ℚ) := by push_cast; linarith
            nlinarith
          linarith
        obtain ⟨hcw, hccw, hprev, hcount⟩ := ih hik hboundi
        rw [sweep_run]
        have hkc : (k : ℚ) * (-d) ≤ ((i + 1 : ℕ) : ℚ) * (-d) := by
          have hle : (k : ℚ) ≤ ((i + 1 : ℕ) : ℚ) := by
            push_cast
            have : (k : ℚ) ≤ (i : ℚ) := Nat.cast_le.mpr hik
            linarith
          nlinarith
        have e1 : ((i + 1 : ℕ) : ℚ) * (-d) = -(((i + 1 : ℕ) : ℚ) * d) := by ring
        have e2 : (k : ℚ) * (-d) = -((k : ℚ) * d) := by ring
        have e3 : ((i + 1 : ℕ) : ℚ) * d - (i : ℚ) * d = d := by push_cast; ring
        have h1 : ¬ (((i + 1 : ℕ) : ℚ) * d -
              (sweep_run minRot d dt i).1.cw_start ≤ -minRot
            ∨ minRot ≤ ((i + 1 : ℕ) : ℚ) * d -
              (sweep_run minRot d dt i).1.ccw_start) := by
          push_neg
          rw [hcw, hccw]
          constructor
          · rw [e1] at hbound
            rw [e2] at hk
            linarith
          · rw [e3]
            linarith
        have h2 : ¬ (sweep_run minRot d dt i).1.cw_start < ((i + 1 : ℕ) : ℚ) * d := by
          rw [hcw]
          push_neg
          rw [e1] at hkc
          rw [e2] at hkc
          linarith
        have h3 : ((i + 1 : ℕ) : ℚ) * d < (sweep_run minRot d dt i).1.ccw_start := by
          rw [hccw]
          linarith [e3]
        have h4 : ¬ |(sweep_run minRot d dt i).1.prev_rot -
            ((i + 1 : ℕ) : ℚ) * d| / dt < 1 := by
          rw [hprev]
          have e4 : (i : ℚ) * d - ((i + 1 : ℕ) : ℚ) * d = -d := by push_cast; ring
          rw [e4, abs_of_pos (by linarith : (0 : ℚ) < -d)]
          exact one_le_neg_div d dt hdt hrate
        rw [reload_step_no_fire_fast minRot (((i + 1 : ℕ) : ℚ) * d) dt _ h1 h2 h3 h4]
        refine ⟨?_, ?_, ?_, ?_⟩ <;> simp [hcw, hcount]

theorem sweep_fires_exactly_once (minRot d dt : ℚ) (n : ℕ)
    (hm : 0 < minRot) (hd : d < 0) (hdt : 0 < dt) (hrate : dt ≤ -d)
    (hlow : (356/355) * minRot ≤ (n : ℚ) * (-d))
    (hhigh : (n : ℚ) * (-d) < 2 * minRot) :
    (sweep_run minRot d dt n).2 = 1 := by
  have hminle : minRot ≤ (n : ℚ) * (-d) := by linarith
  have hex : ∃ i : ℕ, minRot ≤ (i : ℚ) * (-d) := ⟨n, hminle⟩
  have hk := Nat.find_spec hex
  have hkmin : ∀ j : ℕ, j < Nat.find hex → ¬ minRot ≤ (j : ℚ) * (-d) :=
    fun j hj => Nat.find_min hex hj
  have hkn : Nat.find hex ≤ n := Nat.find_min' hex hminle
  exact (sweep_fast_phase2 minRot d dt (Nat.find hex) hm hd hdt hrate hk hkmin
    n hkn hhigh).2.2.2

theorem reload_extrema_cases (minRot : ℚ) (bic : Bool) (acc dt : ℚ)
    (s : PaddleRotationState) :
    ((reload_balls minRot bic acc dt s).1.cw_start = s.cw_start
      ∨ (reload_balls minRot bic acc dt s).1.cw_start = acc)
    ∧ ((reload_balls minRot bic acc dt s).1.ccw_start = s.ccw_start
      ∨ (reload_balls minRot bic acc dt s).1.ccw_start = acc) := by
  unfold reload_balls
  rcases bic with _ | _
  · simp only [Bool.false_eq_true, if_false]
    split_ifs <;> simp [PaddleRotationState.reset]
  · simp [PaddleRotationState.reset]

theorem reload_oscillation_never_fires (minRot A : ℚ)
    (ticks : List (Bool × ℚ × ℚ)) :
    ∀ s : PaddleRotationState, 2 * A < minRot →
      |s.cw_start| ≤ A → |s.ccw_start| ≤ A →
      (∀ t ∈ ticks, |t.2.1| ≤ A) →
      (reload_run minRot ticks s).2 = 0 := by
  induction ticks with
  | nil => intro s _ _ _ _; rfl
  | cons t ts ih =>
      intro s hA hcw hccw hacc
      have hat : |t.2.1| ≤ A := hacc t (List.mem_cons_self t ts)
      obtain ⟨hcwl, hcwr⟩ := abs_le.mp hcw
      obtain ⟨hccwl, hccwr⟩ := abs_le.mp hccw
      obtain ⟨haccl, haccr⟩ := abs_le.mp hat
      have hff : (reload_balls minRot t.1 t.2.1 t.2.2 s).2 ≠ true := by
        intro htrue
        rw [reload_fires_iff] at htrue
        rcases htrue with ⟨_, hcond | hcond⟩ <;> linarith
      have hfire : (reload_balls minRot t.1 t.2.1 t.2.2 s).2 = false :=
        Bool.not_eq_true _ |>.mp hff
      have hcases := reload_extrema_cases minRot t.1 t.2.1 t.2.2 s
      have hcw1 : |(reload_balls minRot t.1 t.2.1 t.2.2 s).1.cw_start| ≤ A := by
        rcases hcases.1 with h | h <;> rw [h] <;> assumption
      have hccw1 : |(reload_balls minRot t.1 t.2.1 t.2.2 s).1.ccw_start| ≤ A := by
        rcases hcases.2 with h | h <;> rw [h] <;> assumption
      rw [reload_run]
      simp only [hfire, Bool.false_eq_true, if_false]
      rw [ih (reload_balls minRot t.1 t.2.1 t.2.2 s).1 hA hcw1 hccw1
        (fun u hu => hacc u (List.mem_cons_of_mem t hu))]

theorem reload_step_slow_reset (minRot acc dt : ℚ) (s : PaddleRotationState)
    (h1 : ¬ (acc - s.cw_start ≤ -minRot ∨ minRot ≤ acc - s.ccw_start))
    (h2 : ¬ s.cw_start < acc) (h3 : acc < s.ccw_start)
    (h4 : |s.prev_rot - acc| / dt < 1)
    (h5 : s.timer_elapsed < TIMER_DURATION ∧ TIMER_DURATION ≤ s.timer_elapsed + dt) :
    reload_balls minRot false acc dt s = (PaddleRotationState.reset acc, false) := by
  unfold reload_balls
  simp only [Bool.false_eq_true, if_false, if_neg h1, if_neg h2, if_pos h3]
  simp only [if_pos h4, if_pos h5]
  simp [PaddleRotationState.reset]

theorem sweep_slow_invariant :
    ∀ i : ℕ, sweep_run (31/5) (-1/100) (1/20) i
      = (⟨(i : ℚ) * (-1/100), (i : ℚ) * (-1/100), (i : ℚ) * (-1/100), 0⟩, 0) := by
  intro i
  induction i with
  | zero => simp [sweep_run, paddle_rotation_init, PaddleRotationState.reset]
  | succ i ih =>
      rw [sweep_run, ih]
      have e1 : ((i + 1 : ℕ) : ℚ) * (-1/100) - (i : ℚ) * (-1/100) = -1/100 := by
        push_cast; ring
      have h1 : ¬ (((i + 1 : ℕ) : ℚ) * (-1/100) -
            (⟨(i : ℚ) * (-1/100), (i : ℚ) * (-1/100), (i : ℚ) * (-1/100), 0⟩ :
              PaddleRotationState).cw_start ≤ -(31/5)
          ∨ (31/5 : ℚ) ≤ ((i + 1 : ℕ) : ℚ) * (-1/100) -
            (⟨(i : ℚ) * (-1/100), (i : ℚ) * (-1/100), (i : ℚ) * (-1/100), 0⟩ :
              PaddleRotationState).ccw_start) := by
        push_neg
        constructor
        · show (-(31/5) : ℚ) < ((i + 1 : ℕ) : ℚ) * (-1/100) - (i : ℚ) * (-1/100)
          rw [e1]; norm_num
        · show ((i + 1 : ℕ) : ℚ) * (-1/100) - (i : ℚ) * (-1/100) < 31/5
          rw [e1]; norm_num
      have h2 : ¬ (⟨(i : ℚ) * (-1/100), (i : ℚ) * (-1/100), (i : ℚ) * (-1/100), 0⟩ :
          PaddleRotationState).cw_start < ((i + 1 : ℕ) : ℚ) * (-1/100) := by
        show ¬ (i : ℚ) * (-1/100) < ((i + 1 : ℕ) : ℚ) * (-1/100)
        push_neg
        linarith [e1]
      have h3 : ((i + 1 : ℕ) : ℚ) * (-1/100) <
          (⟨(i : ℚ) * (-1/100), (i : ℚ) * (-1/100), (i : ℚ) * (-1/100), 0⟩ :
            PaddleRotationState).ccw_start := by
        show ((i + 1 : ℕ) : ℚ) * (-1/100) < (i : ℚ) * (-1/100)
        linarith [e1]
      have h4 : |(⟨(i : ℚ) * (-1/100), (i : ℚ) * (-1/100), (i : ℚ) * (-1/100), 0⟩ :
            PaddleRotationState).prev_rot - ((i + 1 : ℕ) : ℚ) * (-1/100)| / (1/20) < 1 := by
        show |(i : ℚ) * (-1/100) - ((i + 1 : ℕ) : ℚ) * (-1/100)| / (1/20) < 1
        have e2 : (i : ℚ) * (-1/100) - ((i + 1 : ℕ) : ℚ) * (-1/100) = 1/100 := by
          push_cast; ring
        rw [e2, abs_of_pos (by norm_num : (0 : ℚ) < 1/100)]
        norm_num
      have h5 : (⟨(i : ℚ) * (-1/100), (i : ℚ) * (-1/100), (i : ℚ) * (-1/100), 0⟩ :
            PaddleRotationState).timer_elapsed < TIMER_DURATION
          ∧ TIMER_DURATION ≤ (⟨(i : ℚ) * (-1/100), (i : ℚ) * (-1/100), (i : ℚ) * (-1/100), 0⟩ :
            PaddleRotationState).timer_elapsed + 1/20 := by
        constructor
        · show (0 : ℚ) < TIMER_DURATION
          norm_num [TIMER_DURATION]
        · show TIMER_DURATION ≤ (0 : ℚ) + 1/20
          norm_num [TIMER_DURATION]
      rw [reload_step_slow_reset (31/5) (((i + 1 : ℕ) : ℚ) * (-1/100)) (1/20) _ h1 h2 h3 h4 h5]
      simp [PaddleRotationState.reset]

/-- Claim C4 (counterexample to the claim as stated): a monotonic clockwise
sweep of more than 356° with no ball in the core zone that rotates slower
than the idle threshold (1 rad/s; here 0.01 rad per 0.05 s tick, i.e.
0.2 rad/s) fires zero reloads, not exactly one: every tick the 50 ms idle
timer completes and resets the tracker (`movement.rs:125-134`), so the
accumulated angle never reaches the threshold relative to an extremum.
Stated with threshold `31/5 = 6.2` rad (the source's `355°.to_radians()` is
irrational; `6.2` plays 355° exactly, the sweep total `6.5 = 650 × 0.01` rad
exceeding `356/355` of it). -/
theorem reload_slow_sweep_cex :
    (sweep_run (31/5) (-1/100) (1/20) 650).2 = 0
    ∧ (356/355 : ℚ) * (31/5) ≤ (650 : ℚ) * (1/100)
    ∧ (650 : ℚ) * (1/100) < 2 * (31/5)
    ∧ ((1/100 : ℚ) / (1/20) < 1)
    ∧ ¬ (sweep_run (31/5) (-1/100) (1/20) 650).2 = 1 := by
  have h := sweep_slow_invariant 650
  refine ⟨by rw [h], by norm_num, by norm_num, by norm_num, by rw [h]; simp⟩

/-- Claim C4 (amended): the rotation tracker's behaviour, for every positive
reload threshold `minRot` (the source's threshold is `355°` in radians,
irrational, hence quantified): (1) a tick fires a reload exactly when no ball
occupies the core zone and the accumulated angle has moved at least `minRot`
clockwise from the clockwise extremum or counter-clockwise from the
counter-clockwise extremum; (2) a uniform monotonic clockwise sweep totalling
at least `356/355 × minRot` (i.e. 356° for the source's 355° threshold) and
less than two full thresholds, whose per-tick angular rate is at least the
1 rad/s idle threshold (`dt ≤ -d`), fires exactly one reload; (3) any trace
whose accumulated angle stays within `[-A, A]` with `2A < minRot` (e.g. a
±10° oscillation against the 355° threshold) fires no reload, regardless of
tick rate, delta times, or balls in the core zone. -/
theorem reload_tracker_scenarios :
    (∀ (minRot : ℚ) (bic : Bool) (acc dt : ℚ) (s : PaddleRotationState),
        (reload_balls minRot bic acc dt s).2 = true ↔
          bic = false ∧ (acc - s.cw_start ≤ -minRot ∨ minRot ≤ acc - s.ccw_start))
    ∧ (∀ (minRot d dt : ℚ) (n : ℕ), 0 < minRot → d < 0 → 0 < dt → dt ≤ -d →
        (356/355) * minRot ≤ (n : ℚ) * (-d) → (n : ℚ) * (-d) < 2 * minRot →
        (sweep_run minRot d dt n).2 = 1)
    ∧ (∀ (minRot A : ℚ) (ticks : List (Bool × ℚ × ℚ)) (s : PaddleRotationState),
        2 * A < minRot → |s.cw_start| ≤ A → |s.ccw_start| ≤ A →
        (∀ t ∈ ticks, |t.2.1| ≤ A) →
        (reload_run minRot ticks s).2 = 0) :=
  ⟨reload_fires_iff,
   fun minRot d dt n hm hd hdt hrate hlow hhigh =>
     sweep_fires_exactly_once minRot d dt n hm hd hdt hrate hlow hhigh,
   fun minRot A ticks s hA hcw hccw hacc =>
     reload_oscillation_never_fires minRot A ticks s hA hcw hccw hacc⟩

theorem reload_tracker_scenarios_witness :
    ((0 : ℚ) < 6 ∧ (-1/10 : ℚ) < 0 ∧ (0 : ℚ) < 1/100 ∧ (1/100 : ℚ) ≤ -(-1/10)
      ∧ (356/355 : ℚ) * 6 ≤ (61 : ℚ) * (-(-1/10))
      ∧ (61 : ℚ) * (-(-1/10)) < 2 * 6)
    ∧ (sweep_run 6 (-1/10) (1/100) 61).2 = 1
    ∧ (reload_run 6 [(false, 1/2, 1/60)] paddle_rotation_init).2 = 0 :=
  ⟨⟨by norm_num, by norm_num, by norm_num, by norm_num, by norm_num, by norm_num⟩,
   reload_tracker_scenarios.2.1 6 (-1/10) (1/100) 61 (by norm_num) (by norm_num)
     (by norm_num) (by norm_num) (by norm_num) (by norm_num),
   reload_tracker_scenarios.2.2 6 1 [(false, 1/2, 1/60)] paddle_rotation_init
     (by norm_num)
     (by simp [paddle_rotation_init, PaddleRotationState.reset])
     (by simp [paddle_rotation_init, PaddleRotationState.reset])
     (by
        intro t ht
        simp only [List.mem_singleton] at ht
        rw [ht]
        rw [show ((false, (1/2 : ℚ), (1/60 : ℚ)) : Bool × ℚ × ℚ).2.1 = 1/2 from rfl,
          abs_of_pos (by norm_num : (0 : ℚ) < 1/2)]
        norm_num)⟩

/-- Claim C7 (counterexample to the claim as stated): capturing does not zero
the ball's local offset.  With the paddle at translation `(260, 0)` and
identity rotation, a ball whose world position at contact is `(200, 10)` is
reparented with local translation `(-60, 10) ≠ (0, 0)` — the source sets the
local translation to the paddle-local coordinates of the ball's current world
position (`ball.rs:183-186`), not to zero.  Mode transition, reparenting and
movement pause happen as claimed. -/
theorem capture_local_offset_not_zero :
    (capture_ball 0 ⟨1, 0, 260, 0⟩ (200, 10)).ball_local_translation = (-60, 10)
    ∧ ¬ (capture_ball 0 ⟨1, 0, 260, 0⟩ (200, 10)).ball_local_translation = (0, 0)
    ∧ (capture_ball 0 ⟨1, 0, 260, 0⟩ (200, 10)).movement_paused = true
    ∧ (capture_ball 0 ⟨1, 0, 260, 0⟩ (200, 10)).paddle_mode = .captured 0 := by
  norm_num [capture_ball, Rigid2.applyInverse, Prod.ext_iff]

/-- Claim C7 (amended): a paddle contact in `WillCapture` mode (source
`PaddleMode::Capture`, debounce passed) transitions the paddle to `Captured`
recording `shoot_rotation = angle`, reparents the ball to the paddle with
movement paused, and sets the ball's local translation to the paddle-local
coordinates of its current world position — so for a rigid paddle transform
the ball's world position is preserved by the reparenting (rather than the
local offset being zeroed). -/
theorem capture_preserves_world_position (angle_deg : ℚ) (paddle : Rigid2)
    (ball_world : ℚ × ℚ) (hrigid : paddle.c ^ 2 + paddle.s ^ 2 = 1) :
    (capture_ball angle_deg paddle ball_world).paddle_mode = .captured angle_deg
    ∧ (capture_ball angle_deg paddle ball_world).ball_parent_is_paddle = true
    ∧ (capture_ball angle_deg paddle ball_world).movement_paused = true
    ∧ (capture_ball angle_deg paddle ball_world).ball_local_translation
        = paddle.applyInverse ball_world
    ∧ paddle.apply
        (capture_ball angle_deg paddle ball_world).ball_local_translation
        = ball_world := by
  refine ⟨rfl, rfl, rfl, rfl, ?_⟩
  show paddle.apply (paddle.applyInverse ball_world) = ball_world
  rw [Prod.ext_iff]
  constructor
  · show paddle.c * (paddle.c * (ball_world.1 - paddle.tx)
        + paddle.s * (ball_world.2 - paddle.ty))
      - paddle.s * (-paddle.s * (ball_world.1 - paddle.tx)
        + paddle.c * (ball_world.2 - paddle.ty)) + paddle.tx = ball_world.1
    linear_combination (ball_world.1 - paddle.tx) * hrigid
  · show paddle.s * (paddle.c * (ball_world.1 - paddle.tx)
        + paddle.s * (ball_world.2 - paddle.ty))
      + paddle.c * (-paddle.s * (ball_world.1 - paddle.tx)
        + paddle.c * (ball_world.2 - paddle.ty)) + paddle.ty = ball_world.2
    linear_combination (ball_world.2 - paddle.ty) * hrigid

theorem capture_preserves_world_position_witness :
    ((1 : ℚ) ^ 2 + (0 : ℚ) ^ 2 = 1)
    ∧ ((capture_ball 45 ⟨1, 0, 260, 0⟩ (200, 10)).paddle_mode = .captured 45
      ∧ (capture_ball 45 ⟨1, 0, 260, 0⟩ (200, 10)).ball_parent_is_paddle = true
      ∧ (capture_ball 45 ⟨1, 0, 260, 0⟩ (200, 10)).movement_paused = true
      ∧ (capture_ball 45 ⟨1, 0, 260, 0⟩ (200, 10)).ball_local_translation
          = Rigid2.applyInverse ⟨1, 0, 260, 0⟩ (200, 10)
      ∧ Rigid2.apply ⟨1, 0, 260, 0⟩
          (capture_ball 45 ⟨1, 0, 260, 0⟩ (200, 10)).ball_local_translation
          = (200, 10)) :=
  ⟨by norm_num,
   capture_preserves_world_position 45 ⟨1, 0, 260, 0⟩ (200, 10) (by norm_num)⟩

/-- Claim C8: once the core-zone update `balls_inside_core`
(`src/game/ball.rs:55-77`) has processed a ball whose marker/component state
is consistent (marker present exactly when damping and homing are absent —
true of every state this system itself produces), the ball carries neither
damping nor homing exactly when its position is inside the core zone
(distance from the arena centre below `PADDLE_RADIUS × 1.1`), and a ball
outside the zone carries both.  Consistency is preserved, so the
correspondence holds at every subsequent run of the system. -/
theorem balls_inside_core_zone_invariant (b : ZoneBall) (hc : b.consistent) :
    ((balls_inside_core b).inside_core_marker = true ↔ in_core_zone b.pos)
    ∧ (in_core_zone b.pos →
        (balls_inside_core b).damping = none
        ∧ (balls_inside_core b).homing = none)
    ∧ (¬ in_core_zone b.pos →
        (balls_inside_core b).damping.isSome
        ∧ (balls_inside_core b).homing.isSome)
    ∧ (balls_inside_core b).consistent := by
  obtain ⟨hc1, hc2⟩ := hc
  unfold balls_inside_core ZoneBall.consistent
  by_cases hin : in_core_zone b.pos <;>
    rcases hmark : b.inside_core_marker with _ | _ <;>
      simp_all [ball_homing]

theorem balls_inside_core_zone_invariant_witness :
    (⟨(0, 0), false, some (1/2), some ball_homing⟩ : ZoneBall).consistent
    ∧ (((balls_inside_core
          ⟨(0, 0), false, some (1/2), some ball_homing⟩).inside_core_marker = true
        ↔ in_core_zone
            (⟨(0, 0), false, some (1/2), some ball_homing⟩ : ZoneBall).pos)
      ∧ (in_core_zone (⟨(0, 0), false, some (1/2), some ball_homing⟩ : ZoneBall).pos →
          (balls_inside_core
            ⟨(0, 0), false, some (1/2), some ball_homing⟩).damping = none
          ∧ (balls_inside_core
            ⟨(0, 0), false, some (1/2), some ball_homing⟩).homing = none)
      ∧ (¬ in_core_zone (⟨(0, 0), false, some (1/2), some ball_homing⟩ : ZoneBall).pos →
          (balls_inside_core
            ⟨(0, 0), false, some (1/2), some ball_homing⟩).damping.isSome
          ∧ (balls_inside_core
            ⟨(0, 0), false, some (1/2), some ball_homing⟩).homing.isSome)
      ∧ (balls_inside_core
          ⟨(0, 0), false, some (1/2), some ball_homing⟩).consistent) :=
  ⟨by simp [ZoneBall.consistent],
   balls_inside_core_zone_invariant
     ⟨(0, 0), false, some (1/2), some ball_homing⟩
     (by simp [ZoneBall.consistent])⟩

theorem angle_factor_nonneg (r : ℝ) : 0 ≤ angle_factor r :=
  mul_nonneg (le_min (abs_nonneg _) zero_le_one) (Real.sqrt_nonneg _)

theorem fsignum_abs (x : ℝ) : |fsignum x| = 1 := by
  unfold fsignum
  split_ifs <;> norm_num

theorem angle_factor_mul_fsignum (r : ℝ) (h : |r| ≤ 1) :
    angle_factor r * fsignum r = r * Real.sqrt |r| := by
  unfold angle_factor fsignum
  rw [min_eq_left h]
  rcases lt_trichotomy r 0 with hr | hr | hr
  · rw [if_pos hr, abs_of_neg hr]
    ring
  · subst hr
    simp
  · rw [if_neg (not_lt.mpr hr.le), abs_of_pos hr]
    ring

theorem deflection_odd (r : ℝ) :
    angle_factor (-r) * fsignum (-r) = -(angle_factor r * fsignum r) := by
  unfold angle_factor fsignum
  rw [abs_neg]
  rcases lt_trichotomy r 0 with hr | hr | hr
  · rw [if_neg (not_lt.mpr (by linarith : (0 : ℝ) ≤ -r)), if_pos hr]
    ring
  · subst hr
    norm_num
  · rw [if_pos (by linarith : -r < 0), if_neg (not_lt.mpr hr.le)]
    ring

theorem paddle_angle_continuousOn (x : ℝ) :
    ContinuousOn (fun r => paddle_angle r x) (Set.Icc (-1) 1) := by
  have hcont : Continuous
      (fun r : ℝ => r * Real.sqrt |r| * (20 * fsignum x) + origit_rot x) := by
    have h1 : Continuous fun r : ℝ => r * Real.sqrt |r| :=
      continuous_id.mul (Real.continuous_sqrt.comp continuous_abs)
    exact (h1.mul continuous_const).add continuous_const
  refine ContinuousOn.congr hcont.continuousOn ?_
  intro r hr
  have habs : |r| ≤ 1 := abs_le.mpr ⟨hr.1, hr.2⟩
  show paddle_angle r x = r * Real.sqrt |r| * (20 * fsignum x) + origit_rot x
  unfold paddle_angle
  rw [← angle_factor_mul_fsignum r habs]
  ring

theorem angle_factor_monotone (r1 r2 : ℝ) (h : |r1| ≤ |r2|) :
    angle_factor r1 ≤ angle_factor r2 := by
  unfold angle_factor
  have h0' : (0 : ℝ) ≤ min |r2| 1 := le_min (abs_nonneg _) zero_le_one
  have hle : min |r1| 1 ≤ min |r2| 1 := min_le_min h le_rfl
  exact mul_le_mul hle (Real.sqrt_le_sqrt hle) (Real.sqrt_nonneg _) h0'

theorem paddle_angle_deflection_abs (r x : ℝ) :
    |paddle_angle r x - origit_rot x| = angle_factor r * 20 := by
  have hdecomp : paddle_angle r x - origit_rot x
      = angle_factor r * fsignum r * 20 * fsignum x := by
    unfold paddle_angle
    ring
  rw [hdecomp, abs_mul, abs_mul, abs_mul, fsignum_abs, fsignum_abs,
    abs_of_nonneg (angle_factor_nonneg r)]
  norm_num

/-- Claim C6 (amended): for a fixed strike side `x`, the paddle bounce-angle
function `paddle_angle · x` is continuous on `[-1, 1]` and its deflection
magnitude (the angle minus the side offset `origit_rot x`) is monotonically
increasing in `|ratio|`; it is odd in the ratio on the inner side
(`localX ≤ 0`, zero offset), while on the outer side (`localX > 0`) it is odd
only about the 180° offset — `angle(-r) − 180 = −(angle(r) − 180)` — rather
than odd, because of the additive 180° term. -/
theorem paddle_angle_props (x r r₁ r₂ : ℝ) (h : |r₁| ≤ |r₂|) :
    ContinuousOn (fun t => paddle_angle t x) (Set.Icc (-1) 1)
    ∧ (¬ 0 < x → paddle_angle (-r) x = -paddle_angle r x)
    ∧ (0 < x → paddle_angle (-r) x - 180 = -(paddle_angle r x - 180))
    ∧ |paddle_angle r₁ x - origit_rot x| ≤ |paddle_angle r₂ x - origit_rot x| := by
  refine ⟨paddle_angle_continuousOn x, ?_, ?_, ?_⟩
  · intro hx
    unfold paddle_angle origit_rot
    rw [if_neg hx, deflection_odd]
    ring
  · intro hx
    unfold paddle_angle origit_rot
    rw [if_pos hx, deflection_odd]
    ring
  · rw [paddle_angle_deflection_abs, paddle_angle_deflection_abs]
    have := angle_factor_monotone r₁ r₂ h
    linarith

/-- Claim C6 (counterexample to the claim as stated): with the strike on the
outer side (`localX > 0`), the angle function including its 180° flip term is
not odd in the ratio: `angle(1) = 200°` but `angle(-1) = 160° ≠ -200°`. -/
theorem paddle_angle_not_odd_outer :
    paddle_angle 1 1 = 200 ∧ paddle_angle (-1) 1 = 160
    ∧ ¬ paddle_angle (-1) 1 = -(paddle_angle 1 1) := by
  have h1 : paddle_angle 1 1 = 200 := by
    unfold paddle_angle angle_factor fsignum origit_rot
    norm_num [Real.sqrt_one]
  have h2 : paddle_angle (-1) 1 = 160 := by
    unfold paddle_angle angle_factor fsignum origit_rot
    norm_num [Real.sqrt_one]
  refine ⟨h1, h2, ?_⟩
  rw [h1, h2]
  norm_num

theorem paddle_angle_props_witness :
    |(0 : ℝ)| ≤ |(1 : ℝ)|
    ∧ (ContinuousOn (fun t => paddle_angle t (-1)) (Set.Icc (-1) 1)
      ∧ (¬ (0 : ℝ) < -1 →
          paddle_angle (-(1/2)) (-1) = -paddle_angle (1/2) (-1))
      ∧ ((0 : ℝ) < -1 →
          paddle_angle (-(1/2)) (-1) - 180 = -(paddle_angle (1/2) (-1) - 180))
      ∧ |paddle_angle 0 (-1) - origit_rot (-1)|
          ≤ |paddle_angle 1 (-1) - origit_rot (-1)|) :=
  ⟨by norm_num, paddle_angle_props (-1) (1/2) 0 1 (by norm_num)⟩

theorem dot_self_nonneg (v : ℝ × ℝ) : 0 ≤ dot v v :=
  add_nonneg (mul_self_nonneg _) (mul_self_nonneg _)

theorem dot_self_pos (v : ℝ × ℝ) (h : v ≠ (0, 0)) : 0 < dot v v := by
  have hcomp : v.1 ≠ 0 ∨ v.2 ≠ 0 := by
    by_contra hcon
    push_neg at hcon
    exact h (Prod.ext_iff.mpr ⟨hcon.1, hcon.2⟩)
  unfold dot
  rcases hcomp with h1 | h2
  · exact add_pos_of_pos_of_nonneg (mul_self_pos.mpr h1) (mul_self_nonneg _)
  · exact add_pos_of_nonneg_of_pos (mul_self_nonneg _) (mul_self_pos.mpr h2)

theorem normalize_or_zero_unit (v : ℝ × ℝ) (h : v ≠ (0, 0)) :
    dot (normalize_or_zero v) (normalize_or_zero v) = 1 := by
  have hpos : 0 < dot v v := dot_self_pos v h
  have hL2 : vlen v ^ 2 = dot v v := Real.sq_sqrt (dot_self_nonneg v)
  have hLpos : 0 < vlen v := Real.sqrt_pos.mpr hpos
  unfold normalize_or_zero
  rw [if_neg h]
  show (vlen v)⁻¹ * v.1 * ((vlen v)⁻¹ * v.1)
      + (vlen v)⁻¹ * v.2 * ((vlen v)⁻¹ * v.2) = 1
  have hne : vlen v ≠ 0 := ne_of_gt hLpos
  have hdot : dot v v = v.1 * v.1 + v.2 * v.2 := rfl
  rw [hdot] at hL2
  field_simp
  nlinarith [hL2]

theorem unit_ne_zero (u : ℝ × ℝ) (h : dot u u = 1) : u ≠ (0, 0) := by
  intro heq
  rw [heq] at h
  norm_num [dot] at h

theorem rotate2_dot (c s : ℝ) (v : ℝ × ℝ) :
    dot (rotate2 c s v) (rotate2 c s v) = (c ^ 2 + s ^ 2) * dot v v := by
  unfold dot rotate2
  ring

theorem reflect_dir_dot (d n : ℝ × ℝ) (hn : dot n n = 1) :
    dot (reflect_dir d n) (reflect_dir d n) = dot d d := by
  unfold dot at hn ⊢
  unfold reflect_dir dot
  linear_combination (4 * (d.1 * n.1 + d.2 * n.2) ^ 2) * hn

theorem hit_direction_ne_zero (vel dir : ℝ × ℝ) (h : BallHit)
    (hwf : h.wf) (hvel : vel ≠ (0, 0)) (hdir : dir ≠ (0, 0)) :
    hit_direction vel dir h ≠ (0, 0) := by
  cases h with
  | paddleHit mode deb c s pright =>
      cases mode with
      | captured rot => exact hdir
      | capture => exact hdir
      | reflect =>
          unfold hit_direction
          rcases deb with _ | _

          · simp only [Bool.false_eq_true, if_false]
            obtain ⟨hrot, hright⟩ := hwf
            have hu : dot (-pright.1, -pright.2) (-pright.1, -pright.2) = 1 := by
              unfold dot at hright ⊢
              linear_combination hright
            have hrotdot : dot (rotate2 c s (-pright.1, -pright.2))
                (rotate2 c s (-pright.1, -pright.2)) = 1 := by
              rw [rotate2_dot, hu, hrot]
              ring
            exact unit_ne_zero _
              (normalize_or_zero_unit _ (unit_ne_zero _ hrotdot))
          · simp only [if_true]
            exact hdir
  | wallHit deb n =>
      unfold hit_direction
      rcases deb with _ | _
      · simp only [Bool.false_eq_true, if_false]
        have hunit : dot (normalize_or_zero vel) (normalize_or_zero vel) = 1 :=
          normalize_or_zero_unit vel hvel
        have := reflect_dir_dot (normalize_or_zero vel) n hwf
        rw [hunit] at this
        exact unit_ne_zero _ this
      · simp only [if_true]
        exact hdir
  | enemyHit => exact hdir

theorem process_hits_ne_zero (vel : ℝ × ℝ) (hits : List BallHit) :
    ∀ dir : ℝ × ℝ, (∀ h ∈ hits, h.wf) → vel ≠ (0, 0) → dir ≠ (0, 0) →
      process_hits vel dir hits ≠ (0, 0) := by
  induction hits with
  | nil => intro dir _ _ hdir; exact hdir
  | cons h rest ih =>
      intro dir hwf hvel hdir
      rw [process_hits]
      exact ih (hit_direction vel dir h)
        (fun u hu => hwf u (List.mem_cons_of_mem h hu)) hvel
        (hit_direction_ne_zero vel dir h (hwf h (List.mem_cons_self h rest))
          hvel hdir)

/-- Claim C9: for a ball that passes the velocity-magnitude guard
(`|velocity| < f32::EPSILON ⇒ skip`, `ball.rs:123-126`), with velocity derived
as `direction × speed` and library-guaranteed well-formed contact data (unit
contact normals, genuine rotations, unit paddle basis vectors), every
downstream direction construction succeeds: the primary sweep's
`Dir2::new(velocity)` (`ball.rs:131`) receives a nonzero vector, the wall
branch's `velocity.normalize_or_zero()` (`ball.rs:260`) receives a nonzero
vector and yields a unit vector, and the targeting sweep's
`Dir2::new(direction)` (`ball.rs:298`) — evaluated on the direction as
updated by any sequence of contacts in the primary loop — receives a nonzero
vector.  Hence neither `expect("Non zero velocity")` failure branch is ever
reached. -/
theorem velocity_guard_dir_constructions_valid
    (speed : ℝ) (dir vel : ℝ × ℝ) (hits : List BallHit)
    (hvel : vel = (speed * dir.1, speed * dir.2))
    (hguard : ¬ vlen vel < F32_EPSILON)
    (hwf : ∀ h ∈ hits, h.wf) :
    vel ≠ (0, 0)
    ∧ dir ≠ (0, 0)
    ∧ normalize_or_zero vel ≠ (0, 0)
    ∧ dot (normalize_or_zero vel) (normalize_or_zero vel) = 1
    ∧ process_hits vel dir hits ≠ (0, 0) := by
  have hvne : vel ≠ (0, 0) := by
    intro heq
    rw [heq] at hguard
    apply hguard
    unfold vlen dot
    norm_num [F32_EPSILON]
  have hdne : dir ≠ (0, 0) := by
    intro heq
    apply hvne
    rw [hvel, heq]
    norm_num
  have hunit := normalize_or_zero_unit vel hvne
  exact ⟨hvne, hdne, unit_ne_zero _ hunit, hunit,
    process_hits_ne_zero vel hits dir hwf hvne hdne⟩

theorem velocity_guard_dir_constructions_valid_witness :
    (((250 : ℝ), (0 : ℝ)) = (250 * (1 : ℝ), 250 * (0 : ℝ))
      ∧ ¬ vlen (250, 0) < F32_EPSILON
      ∧ ∀ h ∈ [BallHit.wallHit false (-1, 0)], h.wf)
    ∧ (((250 : ℝ), (0 : ℝ)) ≠ (0, 0)
      ∧ ((1 : ℝ), (0 : ℝ)) ≠ (0, 0)
      ∧ normalize_or_zero (250, 0) ≠ (0, 0)
      ∧ dot (normalize_or_zero (250, 0)) (normalize_or_zero (250, 0)) = 1
      ∧ process_hits (250, 0) (1, 0) [BallHit.wallHit false (-1, 0)] ≠ (0, 0)) := by
  have hlen : vlen ((250 : ℝ), (0 : ℝ)) = 250 := by
    unfold vlen dot
    rw [show ((250 : ℝ) * 250 + 0 * 0) = 250 ^ 2 by norm_num,
      Real.sqrt_sq (by norm_num : (0 : ℝ) ≤ 250)]
  have hg : ¬ vlen ((250 : ℝ), (0 : ℝ)) < F32_EPSILON := by
    rw [hlen]
    norm_num [F32_EPSILON]
  have hwf : ∀ h ∈ [BallHit.wallHit false (-1, 0)], h.wf := by
    intro h hh
    simp only [List.mem_singleton] at hh
    rw [hh]
    show dot ((-1 : ℝ), (0 : ℝ)) ((-1 : ℝ), (0 : ℝ)) = 1
    norm_num [dot]
  exact ⟨⟨by norm_num, hg, hwf⟩,
    velocity_guard_dir_constructions_valid 250 (1, 0) (250, 0)
      [BallHit.wallHit false (-1, 0)] (by norm_num) hg hwf⟩

theorem max_ball_speed_target_nil : max_ball_speed_target [] = 1 := rfl

theorem speed_factor_trace_closed_form (f0 dt : ℝ) :
    ∀ n : ℕ, speed_factor_trace f0 dt n
      = 1 + (f0 - 1) * Real.exp (-(1/10 * dt)) ^ n := by
  intro n
  induction n with
  | zero => simp [speed_factor_trace]
  | succ n ih =>
      rw [speed_factor_trace, update_ball_speed_factor, max_ball_speed_target_nil,
        asymptotic_smoothing_with_delta_time, ih]
      ring

/-- Claim C10: on ticks with no ball entity, the speed-factor smoother's
instantaneous target is `1.0` (the `.unwrap_or(1.)` branch of
`update_ball_speed_factor`, `ball.rs:351`), not 0; consequently the smoothed
`MaxBallSpeedFactor` follows the closed form
`1 + (f₀ − 1)·e^(−0.1·dt)·ⁿ` and tends to 1 as the ball-free ticks continue,
driving the bloom intensity toward `BLOOM_BASE + 0.175` and the shake decay,
amplitude and trauma exponent toward their top-speed values `1.0`, `15` and
`2.0`. -/
theorem empty_ball_speed_factor_target_one (f0 dt bloom_base : ℝ) (hdt : 0 < dt) :
    max_ball_speed_target [] = 1
    ∧ (∀ n : ℕ, speed_factor_trace f0 dt n
        = 1 + (f0 - 1) * Real.exp (-(1/10 * dt)) ^ n)
    ∧ Filter.Tendsto (speed_factor_trace f0 dt) Filter.atTop (nhds 1)
    ∧ Filter.Tendsto
        (fun n => bloom_intensity bloom_base (speed_factor_trace f0 dt n))
        Filter.atTop (nhds (bloom_intensity bloom_base 1))
    ∧ Filter.Tendsto
        (fun n => shake_decay_per_second (speed_factor_trace f0 dt n))
        Filter.atTop (nhds (shake_decay_per_second 1))
    ∧ Filter.Tendsto (fun n => shake_amplitude (speed_factor_trace f0 dt n))
        Filter.atTop (nhds (shake_amplitude 1))
    ∧ Filter.Tendsto (fun n => shake_trauma_power (speed_factor_trace f0 dt n))
        Filter.atTop (nhds (shake_trauma_power 1)) := by
  have hE0 : (0 : ℝ) ≤ Real.exp (-(1/10 * dt)) := (Real.exp_pos _).le
  have hE1 : Real.exp (-(1/10 * dt)) < 1 := by
    rw [Real.exp_lt_one_iff]
    linarith
  have hpow : Filter.Tendsto (fun n : ℕ => Real.exp (-(1/10 * dt)) ^ n)
      Filter.atTop (nhds 0) :=
    tendsto_pow_atTop_nhds_zero_of_lt_one hE0 hE1
  have htrace : Filter.Tendsto (speed_factor_trace f0 dt) Filter.atTop (nhds 1) := by
    have h1 : Filter.Tendsto
        (fun n : ℕ => 1 + (f0 - 1) * Real.exp (-(1/10 * dt)) ^ n)
        Filter.atTop (nhds 1) := by
      have := (hpow.const_mul (f0 - 1)).const_add 1
      simpa using this
    exact Filter.Tendsto.congr
      (fun n => (speed_factor_trace_closed_form f0 dt n).symm) h1
  refine ⟨max_ball_speed_target_nil, speed_factor_trace_closed_form f0 dt,
    htrace, ?_, ?_, ?_, ?_⟩
  · simpa [bloom_intensity] using (htrace.const_mul (7/40 : ℝ)).const_add bloom_base
  · simpa [shake_decay_per_second] using
      (htrace.const_mul (1/10 : ℝ)).const_add (9/10 : ℝ)
  · simpa [shake_amplitude] using (htrace.const_mul (10 : ℝ)).const_sub (25 : ℝ)
  · simpa [shake_trauma_power] using
      (htrace.const_mul (1/2 : ℝ)).const_add (3/2 : ℝ)

theorem empty_ball_speed_factor_target_one_witness :
    (0 : ℝ) < 1
    ∧ (max_ball_speed_target [] = 1
      ∧ (∀ n : ℕ, speed_factor_trace 0 1 n
          = 1 + ((0 : ℝ) - 1) * Real.exp (-(1/10 * 1)) ^ n)
      ∧ Filter.Tendsto (speed_factor_trace 0 1) Filter.atTop (nhds 1)
      ∧ Filter.Tendsto (fun n => bloom_intensity 0 (speed_factor_trace 0 1 n))
          Filter.atTop (nhds (bloom_intensity 0 1))
      ∧ Filter.Tendsto
          (fun n => shake_decay_per_second (speed_factor_trace 0 1 n))
          Filter.atTop (nhds (shake_decay_per_second 1))
      ∧ Filter.Tendsto (fun n => shake_amplitude (speed_factor_trace 0 1 n))
          Filter.atTop (nhds (shake_amplitude 1))
      ∧ Filter.Tendsto (fun n => shake_trauma_power (speed_factor_trace 0 1 n))
          Filter.atTop (nhds (shake_trauma_power 1))) :=
  ⟨by norm_num, empty_ball_speed_factor_target_one 0 1 0 (by norm_num)⟩
